import Mathlib

/-!
Shallow embedding of the core scoring and recommendation engine of the
ATS-resume-checker repository (source files `src/scorer.py` and
`src/recommender.py`), together with theorems settling the frozen claims
about its specification.

Conventions of the embedding:
* Python strings are Lean `String`s; character-level operations are modelled
  at the ASCII level (all inputs the engine cares about survive its own
  `[^a-zA-Z0-9\s]` filtering, and the concrete inputs used in witnesses and
  counterexamples are plain ASCII).
* Python floats are modelled as real numbers (`ℝ`); `round(x, n)` is
  modelled exactly, including Python's round-half-to-even tie rule.
* External library calls (NLTK's `word_tokenize`, scikit-learn's
  `TfidfVectorizer.transform` / `cosine_similarity`, the sentence-transformer
  encoder) are modelled by explicit Lean functions or abstract parameters,
  as documented at each definition.
* CPython's hash-randomised `set` iteration order is modelled by an
  arbitrary enumeration function constrained to produce a permutation
  (`SetEnum` below).
-/

/-- The six ASCII whitespace characters matched by Python's `\s`
(space, tab, newline, carriage return, vertical tab, form feed). -/
def isSpacePy (c : Char) : Bool :=
  c = ' ' || c = '\t' || c = '\n' || c = '\r' || c = Char.ofNat 11 || c = Char.ofNat 12

/-- `re.sub(r'\s+', ' ', ·)`: collapse every maximal run of whitespace
characters into a single space. -/
def squeeze : List Char → List Char
  | [] => []
  | c :: cs =>
    let s := squeeze cs
    if isSpacePy c then
      match s with
      | ' ' :: rest => ' ' :: rest
      | _ => ' ' :: s
    else c :: s

/-- Python `str.strip()`: drop leading and trailing whitespace. -/
def trimWs (l : List Char) : List Char :=
  ((l.dropWhile isSpacePy).reverse.dropWhile isSpacePy).reverse

/-- The character substitution of `re.sub(r'[^a-zA-Z0-9\s]', ' ', ·)` in
`EnhancedATSResumeScorer.preprocess_text`: keep ASCII alphanumerics and
whitespace, replace everything else by a space. -/
def replaceNonAlnum (c : Char) : Char :=
  if c.isAlphanum || isSpacePy c then c else ' '

/-- `EnhancedATSResumeScorer.preprocess_text`: empty check, lowercase,
replace characters outside `[a-zA-Z0-9\s]` by a space, collapse whitespace
runs, strip. -/
def preprocess_text (text : String) : String :=
  if text = "" then ""
  else ⟨trimWs (squeeze ((text.toList.map Char.toLower).map replaceNonAlnum))⟩

/-- The character substitution described by the specification's
TextNormalizer: every character outside `[a-zA-Z0-9 ]` (note: plain space
only, not general whitespace) is replaced by a space. -/
def replaceNonAlnumSpec (c : Char) : Char :=
  if c.isAlphanum || c = ' ' then c else ' '

/-- The TextNormalizer exactly as the specification words it: lowercase the
text, replace every character outside `[a-zA-Z0-9 ]` by a space, collapse
runs of whitespace to a single space, trim. -/
def normalizeSpec (text : String) : String :=
  ⟨trimWs (squeeze ((text.toList.map Char.toLower).map replaceNonAlnumSpec))⟩

/-- Map whitespace characters to a plain space, leave the rest alone. -/
def wsToSpace (c : Char) : Char :=
  if isSpacePy c then ' ' else c

/-- One step of splitting a character list into whitespace-separated words
(used right-to-left by `wordTokenize`). -/
def splitStep (c : Char) (acc : List (List Char)) : List (List Char) :=
  match acc with
  | [] => [[]]
  | w :: ws => if isSpacePy c then [] :: w :: ws else (c :: w) :: ws

/-- Python's `str.lower()` (ASCII model, applied character by character). -/
def pyLower (s : String) : String :=
  ⟨s.toList.map Char.toLower⟩

/-- Model of NLTK's `word_tokenize` (an external library call): split the
text into maximal whitespace-free chunks.  On punctuation-free text — the
only kind that survives the scorer's own alphabetic token filter, and the
only kind used in the concrete inputs below — this agrees with the
Punkt/Treebank tokenizer. -/
def wordTokenize (s : String) : List String :=
  ((s.toList.foldr splitStep [[]]).filter (fun w => !w.isEmpty)).map (fun w => ⟨w⟩)

/-- NLTK's English stopword list, as loaded by
`set(stopwords.words('english'))` in `EnhancedATSResumeScorer.__init__`.
Entries containing an apostrophe (you're, don't, isn't, …) are omitted:
the scorer only ever keeps a token when `token not in stop_words` *and*
`token.isalpha()` both hold, and a token equal to an apostrophe entry
fails `isalpha`, so dropping those entries changes nothing. -/
def stopWords : List String :=
  ["i", "me", "my", "myself", "we", "our", "ours", "ourselves", "you",
   "your", "yours", "yourself", "yourselves", "he", "him", "his", "himself",
   "she", "her", "hers", "herself", "it", "its", "itself", "they", "them",
   "their", "theirs", "themselves", "what", "which", "who", "whom", "this",
   "that", "these", "those", "am", "is", "are", "was", "were", "be", "been",
   "being", "have", "has", "had", "having", "do", "does", "did", "doing",
   "a", "an", "the", "and", "but", "if", "or", "because", "as", "until",
   "while", "of", "at", "by", "for", "with", "about", "against", "between",
   "into", "through", "during", "before", "after", "above", "below", "to",
   "from", "up", "down", "in", "out", "on", "off", "over", "under", "again",
   "further", "then", "once", "here", "there", "when", "where", "why", "how",
   "all", "any", "both", "each", "few", "more", "most", "other", "some",
   "such", "no", "nor", "not", "only", "own", "same", "so", "than", "too",
   "very", "s", "t", "can", "will", "just", "don", "should", "now", "d",
   "ll", "m", "o", "re", "ve", "y", "ain", "aren", "couldn", "didn",
   "doesn", "hadn", "hasn", "haven", "isn", "ma", "mightn", "mustn",
   "needn", "shan", "shouldn", "wasn", "weren", "won", "wouldn"]

/-- Python's `str.isalpha()`: non-empty and every character alphabetic
(ASCII model). -/
def pyIsAlpha (t : String) : Bool :=
  !t.isEmpty && t.toList.all Char.isAlpha

/-- The token filter of `extract_keywords`:
`token not in self.stop_words and len(token) > 2 and token.isalpha()`. -/
def keepToken (t : String) : Bool :=
  !stopWords.contains t && decide (2 < t.length) && pyIsAlpha t

/-- One update of the Python dict `keyword_freq`: increment the count of
`k`, appending a fresh key at the end (Python dicts preserve insertion
order, so keys sit in first-occurrence order). -/
def bump (k : String) : List (String × Nat) → List (String × Nat)
  | [] => [(k, 1)]
  | (q, n) :: rest => if q = k then (q, n + 1) :: rest else (q, n) :: bump k rest

/-- The `keyword_freq` dict of `extract_keywords`: token → frequency,
with keys in first-occurrence order. -/
def freqList (toks : List String) : List (String × Nat) :=
  toks.foldl (fun acc t => bump t acc) []

/-- Stable insertion into a count-descending list: the new element goes
before every element whose count is not strictly larger.  Processing the
input right-to-left (`sortDesc`) makes this extensionally equal to Python's
stable `sorted(..., key=lambda x: x[1], reverse=True)`. -/
def insertDesc (p : String × Nat) : List (String × Nat) → List (String × Nat)
  | [] => [p]
  | q :: qs => if p.2 < q.2 then q :: insertDesc p qs else p :: q :: qs

/-- Stable sort by count descending, modelling Python's `sorted` with
`key=lambda x: x[1], reverse=True` (Timsort is stable; any stable sort is
extensionally the same function). -/
def sortDesc : List (String × Nat) → List (String × Nat)
  | [] => []
  | p :: ps => insertDesc p (sortDesc ps)

/-- `EnhancedATSResumeScorer.extract_keywords`: tokenize the lowercased
text, keep non-stopword alphabetic tokens longer than 2 characters, count
frequencies, stable-sort by frequency descending, return the first `top_k`
tokens.  The Python default for `top_k` is 20; callers in the embedding
pass it explicitly. -/
def extract_keywords (text : String) (top_k : Nat) : List String :=
  if text = "" then []
  else
    ((sortDesc (freqList ((wordTokenize (pyLower text)).filter keepToken))).take top_k).map
      Prod.fst

/-- Pair every element with its position, starting from `i`. -/
def withIdx {α : Type} : Nat → List α → List (Nat × α)
  | _, [] => []
  | i, a :: as => (i, a) :: withIdx (i + 1) as

/-- Insertion for the specification's sort order: frequency descending with
first-occurrence index ascending as the deterministic tie-break.  The new
element goes before every element with strictly higher frequency or with
equal frequency and an earlier first occurrence. -/
def insertLex (p : Nat × String × Nat) :
    List (Nat × String × Nat) → List (Nat × String × Nat)
  | [] => [p]
  | q :: qs =>
    if p.2.2 < q.2.2 ∨ (p.2.2 = q.2.2 ∧ q.1 < p.1) then q :: insertLex p qs
    else p :: q :: qs

/-- Sort by the specification's explicit key (frequency descending,
first-occurrence index ascending). -/
def sortLex : List (Nat × String × Nat) → List (Nat × String × Nat)
  | [] => []
  | p :: ps => insertLex p (sortLex ps)

/-- Keyword extraction exactly as the specification words it: tokenize,
filter, count frequencies, sort by (frequency descending, first-occurrence
order as deterministic tie-break), return the `top_k` first tokens. -/
def extractKeywordsSpec (text : String) (top_k : Nat) : List String :=
  if text = "" then []
  else
    ((sortLex (withIdx 0 (freqList ((wordTokenize (pyLower text)).filter keepToken)))).take
      top_k).map (fun t => t.2.1)

/-- Admissibility of a model of CPython's `list(s)` on a string set `s`:
iterating a set yields each element exactly once, in an order that depends
on the process's hash randomisation — i.e. some permutation of the
elements.  The embedding quantifies over the enumeration. -/
def SetEnum (enum : List String → List String) : Prop :=
  ∀ l, List.Perm (enum l) l

/-- `EnhancedATSResumeScorer.find_missing_keywords`:
`set(extract_keywords(job)) - set(extract_keywords(resume))`, enumerated in
the hash-dependent order modelled by `enum`, truncated to 10.  The filter
below is the canonical list of the set difference (both keyword lists are
duplicate-free), to which the arbitrary enumeration is applied. -/
def find_missing_keywords (enum : List String → List String)
    (resume job : String) : List String :=
  (enum ((extract_keywords job 20).filter
    (fun kw => decide (kw ∉ extract_keywords resume 20)))).take 10

/-- Frequency of a token among the filtered tokens of a text (the quantity
the specification's GapAnalyzer orders by). -/
def jobFreq (job t : String) : Nat :=
  ((wordTokenize (pyLower job)).filter keepToken).count t

/-- A token sequence is ordered by descending frequency in the given text. -/
def sortedByJobFreq (job : String) (l : List String) : Prop :=
  l.Pairwise (fun a b => jobFreq job b ≤ jobFreq job a)

/-- Dot product of two real vectors. -/
def dotProd {n : ℕ} (u v : Fin n → ℝ) : ℝ := ∑ i, u i * v i

/-- Model of scikit-learn's `cosine_similarity` on two vectors (an external
library call): the dot product over the product of Euclidean norms, with the
convention that a zero denominator yields 0 (sklearn leaves all-zero rows
zero after normalisation, producing similarity 0). -/
noncomputable def cosineSim {n : ℕ} (u v : Fin n → ℝ) : ℝ :=
  dotProd u v / (Real.sqrt (dotProd u u) * Real.sqrt (dotProd v v))

/-- State of `EnhancedATSResumeScorer` as far as scoring is concerned.
`termCount` and `idf` model the fitted `TfidfVectorizer` (an external
library object): `termCount text i` is the count of vocabulary feature `i`
in `text` under sklearn's tokenisation, and `idf i` the fitted
inverse-document-frequency weight (sklearn computes
`ln((1+N)/(1+df))+1 ≥ 1 > 0`; theorems take nonnegativity as an explicit
hypothesis).  `hf_model` models the optional sentence-transformer: when
present, `f a b` is the cosine similarity of the embeddings of the two
preprocessed texts (a cosine, hence in `[-1, 1]`, but with no further
guarantee — in particular not necessarily nonnegative).  The constructor
establishes `use_huggingface = true` only when a model loaded, but the
embedding keeps the two fields independent exactly as the Python object
does. -/
structure Scorer where
  nVocab : ℕ
  termCount : String → Fin nVocab → ℕ
  idf : Fin nVocab → ℝ
  hf_model : Option (String → String → ℝ)
  use_huggingface : Bool

/-- The TF-IDF vector `self.vectorizer.transform([text])` up to the row
l2-normalisation, which cancels inside `cosine_similarity`. -/
noncomputable def tfidfVec (s : Scorer) (text : String) : Fin s.nVocab → ℝ :=
  fun i => (s.termCount text i : ℝ) * s.idf i

/-- `EnhancedATSResumeScorer.calculate_tfidf_similarity`: preprocess both
texts, return 0 if either is empty, else the cosine similarity of their
TF-IDF vectors.  (The Python `except` branch that maps internal numerical
errors to 0.0 is unreachable in the total model.) -/
noncomputable def calculate_tfidf_similarity (s : Scorer) (resume job : String) : ℝ :=
  if preprocess_text resume = "" ∨ preprocess_text job = "" then 0
  else cosineSim (tfidfVec s (preprocess_text resume)) (tfidfVec s (preprocess_text job))

/-- `EnhancedATSResumeScorer.calculate_huggingface_similarity`: 0 when no
model is loaded or either preprocessed text is empty, else the cosine
similarity the sentence-transformer model reports for the two preprocessed
texts. -/
noncomputable def calculate_huggingface_similarity (s : Scorer) (resume job : String) : ℝ :=
  match s.hf_model with
  | none => 0
  | some f =>
    if preprocess_text resume = "" ∨ preprocess_text job = "" then 0
    else f (preprocess_text resume) (preprocess_text job)

/-- The dictionary returned by
`EnhancedATSResumeScorer.calculate_hybrid_similarity`. -/
structure HybridResult where
  combined_similarity : ℝ
  tfidf_similarity : ℝ
  huggingface_similarity : ℝ
  method : String

/-- `EnhancedATSResumeScorer.calculate_hybrid_similarity`: TF-IDF and (if
enabled) transformer similarities, combined 70/30 when a transformer model
is present, else TF-IDF alone; `method` is the string literal the code
stores. -/
noncomputable def calculate_hybrid_similarity (s : Scorer) (resume job : String) :
    HybridResult :=
  if s.use_huggingface && s.hf_model.isSome then
    { combined_similarity :=
        0.7 * (if s.use_huggingface then calculate_huggingface_similarity s resume job else 0)
          + 0.3 * calculate_tfidf_similarity s resume job
      tfidf_similarity := calculate_tfidf_similarity s resume job
      huggingface_similarity :=
        if s.use_huggingface then calculate_huggingface_similarity s resume job else 0
      method := "hybrid_huggingface_tfidf" }
  else
    { combined_similarity := calculate_tfidf_similarity s resume job
      tfidf_similarity := calculate_tfidf_similarity s resume job
      huggingface_similarity :=
        if s.use_huggingface then calculate_huggingface_similarity s resume job else 0
      method := "tfidf_only" }

/-- Python's built-in `round` to an integer: round-half-to-even.  On a tie
(`fract y = 1/2`) the result is the even integer `2 * round(y/2)`; otherwise
it is the nearest integer. -/
noncomputable def pyRound (y : ℝ) : ℤ :=
  if Int.fract y = 1 / 2 then 2 * round (y / 2) else round y

/-- Python's `round(x, d)` for `d` decimal digits (exact-real model of the
float operation). -/
noncomputable def pyRoundTo (x : ℝ) (d : ℕ) : ℝ :=
  (pyRound (x * 10 ^ d) : ℝ) / 10 ^ d

/-- `keyword_overlap` of `calculate_ats_score`:
`len(set(resume_keywords) & set(job_keywords))`. -/
def keyword_overlap (resume job : String) : ℕ :=
  ((extract_keywords resume 20).toFinset ∩ (extract_keywords job 20).toFinset).card

/-- `keyword_coverage` of `calculate_ats_score`:
`(keyword_overlap / len(job_keywords)) * 100 if job_keywords else 0`. -/
noncomputable def keyword_coverage (resume job : String) : ℝ :=
  if extract_keywords job 20 ≠ [] then
    ((keyword_overlap resume job : ℝ) / ((extract_keywords job 20).length : ℝ)) * 100
  else 0

/-- `EnhancedATSResumeScorer.generate_suggestions`: fixed advice strings
keyed on score thresholds and on whether any keywords are missing. -/
noncomputable def generate_suggestions (missing_keywords : List String)
    (ats_score : ℝ) : List String :=
  (if ats_score < 30 then ["🔴 Critical: Resume needs significant improvement"]
   else if ats_score < 50 then ["🟡 Moderate: Resume needs improvement"]
   else if ats_score < 70 then ["🟢 Good: Resume is well-aligned but could improve"]
   else ["✅ Excellent: Resume is very well-aligned"])
  ++ (if missing_keywords ≠ [] then
        ["📝 Add missing keywords: " ++ String.intercalate ", " (missing_keywords.take 5)]
      else [])
  ++ (if ats_score < 60 then
        ["💡 Include more specific technical skills",
         "📊 Quantify achievements with numbers",
         "🎯 Tailor experience to job requirements"]
      else [])

/-- A Python value as stored in the analysis dictionary. -/
inductive PyVal where
  | num (x : ℝ)
  | str (s : String)
  | strList (l : List String)
  | bool (b : Bool)

/-- Python `dict.get(key, default)` over the insertion-ordered
key/value list. -/
def pyGet : List (String × PyVal) → String → PyVal → PyVal
  | [], _, dflt => dflt
  | (k, v) :: rest, key, dflt => if k = key then v else pyGet rest key dflt

/-- Coercions used at each `analysis.get(...)` site of the recommender;
the scorer only ever stores the matching variant under each key. -/
def asNum : PyVal → ℝ
  | .num x => x
  | _ => 0

def asStr : PyVal → String
  | .str s => s
  | _ => ""

def asStrList : PyVal → List String
  | .strList l => l
  | _ => []

/-- `EnhancedATSResumeScorer.calculate_ats_score`: the analysis dictionary
the happy path returns, with exactly the twelve keys of the Python dict
literal (in particular there is no `resume_text` and no `resume_word_count`
key).  The `except` fallback dictionary is unreachable in the total
model. -/
noncomputable def calculate_ats_score (s : Scorer) (enum : List String → List String)
    (resume job : String) : List (String × PyVal) :=
  let similarity_results := calculate_hybrid_similarity s resume job
  let ats_score := similarity_results.combined_similarity * 100
  [("ats_score", PyVal.num (pyRoundTo ats_score 2)),
   ("similarity_score", PyVal.num (pyRoundTo similarity_results.combined_similarity 4)),
   ("tfidf_similarity", PyVal.num (pyRoundTo similarity_results.tfidf_similarity 4)),
   ("huggingface_similarity",
     PyVal.num (pyRoundTo similarity_results.huggingface_similarity 4)),
   ("keyword_coverage", PyVal.num (pyRoundTo (keyword_coverage resume job) 2)),
   ("resume_keywords", PyVal.strList ((extract_keywords resume 20).take 15)),
   ("job_keywords", PyVal.strList ((extract_keywords job 20).take 15)),
   ("missing_keywords", PyVal.strList (find_missing_keywords enum resume job)),
   ("suggestions",
     PyVal.strList (generate_suggestions (find_missing_keywords enum resume job) ats_score)),
   ("model_method", PyVal.str similarity_results.method),
   ("huggingface_available", PyVal.bool s.use_huggingface),
   ("analysis_type", PyVal.str "enhanced_hybrid")]

/-- C1 counterexample prerequisites and C2 witnesses use tiny concrete
scorers over a one-feature vocabulary with unit counts and unit IDF
weight. -/
def cnt1 : String → Fin 1 → ℕ := fun _ _ => 1

noncomputable def idf1 : Fin 1 → ℝ := fun _ => 1

/-- A scorer whose transformer model loaded (it reports constant
similarity 1/2). -/
noncomputable def scorerHyb : Scorer :=
  { nVocab := 1, termCount := cnt1, idf := idf1
    hf_model := some (fun _ _ => 1 / 2), use_huggingface := true }

/-- A scorer with the transformer disabled (the lexical-only degradation
path). -/
noncomputable def scorerLex : Scorer :=
  { nVocab := 1, termCount := cnt1, idf := idf1
    hf_model := none, use_huggingface := false }

/-- A scorer whose transformer model reports cosine similarity −1 (a
legitimate cosine value; transformer embedding cosines are not guaranteed
nonnegative). -/
noncomputable def scorerNeg : Scorer :=
  { nVocab := 1, termCount := cnt1, idf := idf1
    hf_model := some (fun _ _ => -1), use_huggingface := true }

/-- A job description with 20 distinct eligible keywords and a resume
containing exactly its first 15. -/
def jobText20 : String :=
  "qaa qbb qcc qdd qee qff qgg qhh qii qjj qkk qll qmm qnn qoo qpp qqq qrr qss qtt"

def resumeText15 : String :=
  "qaa qbb qcc qdd qee qff qgg qhh qii qjj qkk qll qmm qnn qoo"

/-- Python's substring test `needle in haystack`. -/
def strContains (haystack needle : String) : Bool :=
  haystack.toList.tails.any (fun t => needle.toList.isPrefixOf t)

/-- `ResumeRecommender.keyword_categories`: the fixed category →
member-keyword lists, in the dict's insertion order. -/
def keyword_categories : List (String × List String) :=
  [("action_verbs",
    ["achieved", "developed", "implemented", "managed", "led",
     "created", "designed", "optimized", "improved", "increased",
     "reduced", "solved", "delivered", "executed", "coordinated",
     "collaborated", "analyzed", "researched", "innovated", "transformed"]),
   ("technical_skills",
    ["programming", "software development", "database management",
     "cloud computing", "machine learning", "data analysis",
     "web development", "mobile development", "devops", "agile",
     "scrum", "version control", "api development", "microservices"]),
   ("soft_skills",
    ["leadership", "communication", "problem solving", "teamwork",
     "project management", "time management", "adaptability",
     "critical thinking", "creativity", "attention to detail"]),
   ("quantifiers",
    ["increased by", "reduced by", "improved by", "achieved",
     "managed", "led team of", "budget of", "revenue of",
     "saved", "generated", "delivered", "completed"])]

/-- The local `categorized` dict of `_categorize_keywords`, with exactly
the keys the code initializes: note `"technical"`, while the category
table uses the key `"technical_skills"`. -/
def emptyCategorized : List (String × List String) :=
  [("technical", []), ("action_verbs", []), ("soft_skills", []),
   ("quantifiers", []), ("other", [])]

/-- `categorized[key].append(v)`: `none` models Python's `KeyError` when
the key is absent. -/
def dictAppend : List (String × List String) → String → String →
    Option (List (String × List String))
  | [], _, _ => none
  | (k, l) :: rest, key, v =>
    if k = key then some ((k, l ++ [v]) :: rest)
    else (dictAppend rest key v).map (fun r => (k, l) :: r)

/-- One iteration of the loop in `ResumeRecommender._categorize_keywords`:
find the first category whose member list has a substring match in the
lowercased keyword and append there, else append under `"other"`. -/
def categorizeOne (d : List (String × List String)) (kw : String) :
    Option (List (String × List String)) :=
  match keyword_categories.find?
      (fun c => c.2.any (fun ck => strContains (pyLower kw) ck)) with
  | some c => dictAppend d c.1 kw
  | none => dictAppend d "other" kw

/-- `ResumeRecommender._categorize_keywords` (`none` = the loop raised
`KeyError`). -/
def categorize_keywords (kws : List String) :
    Option (List (String × List String)) :=
  kws.foldlM categorizeOne emptyCategorized

/-- One analyzed resume section: presence flag plus advice strings. -/
structure SectionInfo where
  present : Bool
  recommendations : List String
deriving DecidableEq

/-- The four canonical sections of `ResumeRecommender._analyze_sections`. -/
structure Sections where
  summary : SectionInfo
  experience : SectionInfo
  skills : SectionInfo
  education : SectionInfo
deriving DecidableEq

/-- `ResumeRecommender._analyze_sections`: lowercase-substring search for
the canonical headers in `analysis.get('resume_text', '')`. -/
def analyze_sections (analysis : List (String × PyVal)) : Sections :=
  let resume_text := pyLower (asStr (pyGet analysis "resume_text" (PyVal.str "")))
  { summary :=
      if ["summary", "objective", "profile"].any (fun w => strContains resume_text w)
      then ⟨true, []⟩ else ⟨false, ["Add a professional summary section"]⟩
    experience :=
      if ["experience", "employment", "work history"].any (fun w => strContains resume_text w)
      then ⟨true, []⟩ else ⟨false, ["Add work experience section"]⟩
    skills :=
      if ["skills", "technical skills", "competencies"].any (fun w => strContains resume_text w)
      then ⟨true, []⟩ else ⟨false, ["Add skills section"]⟩
    education :=
      if ["education", "academic", "degree"].any (fun w => strContains resume_text w)
      then ⟨true, []⟩ else ⟨false, ["Add education section"]⟩ }

/-- Output of `ResumeRecommender._analyze_format`. -/
structure FormatInfo where
  recommendations : List String
  warnings : List String
  tips : List String

/-- `ResumeRecommender._analyze_format`: word-count thresholds on
`analysis.get('resume_word_count', 0)` and whitespace checks on
`analysis.get('resume_text', '')`. -/
noncomputable def analyze_format (analysis : List (String × PyVal)) : FormatInfo :=
  { warnings :=
      if asNum (pyGet analysis "resume_word_count" (PyVal.num 0)) < 200 then
        ["Resume is too short - consider adding more detail"]
      else if asNum (pyGet analysis "resume_word_count" (PyVal.num 0)) > 800 then
        ["Resume is too long - consider condensing content"]
      else []
    tips :=
      (if strContains (asStr (pyGet analysis "resume_text" (PyVal.str ""))) "  " then
        ["Remove extra spaces for better ATS parsing"] else [])
      ++ (if strContains (asStr (pyGet analysis "resume_text" (PyVal.str ""))) "\t" then
        ["Replace tabs with spaces for better ATS compatibility"] else [])
    recommendations :=
      ["Use standard section headers (Experience, Education, Skills)",
       "Use bullet points for easy scanning",
       "Keep formatting simple and consistent",
       "Use standard fonts (Arial, Calibri, Times New Roman)"] }

/-- Output of `ResumeRecommender._analyze_keywords`. -/
structure KeywordInfo where
  missing_count : ℕ
  present_count : ℕ
  recommendations : List String
  suggested_additions : List String
  optimization_tips : List String

/-- `ResumeRecommender._analyze_keywords` (`none` when categorization
raised). -/
def analyze_keywords (missing_keywords resume_keywords : List String) :
    Option KeywordInfo :=
  (categorize_keywords missing_keywords).map (fun cat =>
    { missing_count := missing_keywords.length
      present_count := resume_keywords.length
      recommendations :=
        (cat.filter (fun c => !c.2.isEmpty)).map (fun c =>
          "Add " ++ c.1 ++ " keywords: " ++ String.intercalate ", " (c.2.take 3))
      suggested_additions :=
        ((cat.filter (fun c => !c.2.isEmpty)).map (fun c => c.2.take 5)).flatten
      optimization_tips :=
        (if resume_keywords.length < 10 then
          ["Increase keyword density by including more relevant technical terms"] else [])
        ++ (if missing_keywords.length > 10 then
          ["Focus on adding the most important missing keywords first"] else []) })

/-- Output of `ResumeRecommender._analyze_content`. -/
structure ContentInfo where
  recommendations : List String
  strengths : List String
  improvements : List String

/-- `ResumeRecommender._analyze_content`: score-threshold advice. -/
noncomputable def analyze_content (analysis : List (String × PyVal)) : ContentInfo :=
  { improvements :=
      if asNum (pyGet analysis "ats_score" (PyVal.num 0)) < 50 then
        ["Rewrite job descriptions to match the target role",
         "Include specific technologies and tools mentioned in the job posting",
         "Quantify achievements with numbers and metrics"]
      else if asNum (pyGet analysis "ats_score" (PyVal.num 0)) < 70 then
        ["Fine-tune keyword usage to better match job requirements",
         "Add more specific technical details",
         "Include more quantifiable achievements"]
      else []
    strengths :=
      if asNum (pyGet analysis "ats_score" (PyVal.num 0)) < 50 then []
      else if asNum (pyGet analysis "ats_score" (PyVal.num 0)) < 70 then []
      else ["Good keyword alignment with job requirements"]
    recommendations :=
      ["Use action verbs to start bullet points",
       "Include specific technologies and tools",
       "Quantify achievements with numbers",
       "Tailor content to the specific job posting",
       "Use industry-specific terminology"] }

/-- Output of `ResumeRecommender._analyze_ats_optimization`. -/
structure AtsOptInfo where
  recommendations : List String
  critical_issues : List String
  optimization_tips : List String

/-- `ResumeRecommender._analyze_ats_optimization`. -/
def analyze_ats_optimization (analysis : List (String × PyVal)) : AtsOptInfo :=
  { critical_issues :=
      (if strContains (asStr (pyGet analysis "resume_text" (PyVal.str ""))) "\t"
          || strContains (asStr (pyGet analysis "resume_text" (PyVal.str ""))) "  " then
        ["Remove tabs and extra spaces"] else [])
      ++ (if (asStr (pyGet analysis "resume_text" (PyVal.str ""))).toList.any
            (fun c => c.toNat > 127) then
        ["Remove special characters and symbols"] else [])
    recommendations :=
      ["Use standard section headers",
       "Avoid tables and complex formatting",
       "Use simple bullet points",
       "Include relevant keywords naturally",
       "Save as PDF for best compatibility"]
    optimization_tips :=
      ["Test your resume with ATS checkers",
       "Use keywords from the job description",
       "Keep formatting simple and clean",
       "Use standard fonts and sizes",
       "Avoid graphics and images"] }

/-- `ResumeRecommender._determine_priority`. -/
noncomputable def determine_priority (ats_score : ℝ) : String :=
  if ats_score < 30 then "high" else if ats_score < 60 then "medium" else "low"

/-- The full recommendation bundle of
`ResumeRecommender.generate_recommendations`. -/
structure Recommendations where
  priority : String
  sections : Sections
  keywords : KeywordInfo
  format : FormatInfo
  content : ContentInfo
  ats_optimization : AtsOptInfo
  overall_score : ℤ

/-- `ResumeRecommender._calculate_recommendation_score`: 100 minus the
priority, missing-section and missing-keyword deductions, clamped to
`[0, 100]`. -/
def calculate_recommendation_score (priority : String) (sections : Sections)
    (keywords : KeywordInfo) : ℤ :=
  let s1 : ℤ := 100 - (if priority = "high" then 30
    else if priority = "medium" then 15 else 0)
  let missing_sections : ℤ :=
    (if sections.summary.present then 0 else 1)
    + (if sections.experience.present then 0 else 1)
    + (if sections.skills.present then 0 else 1)
    + (if sections.education.present then 0 else 1)
  let s2 := s1 - missing_sections * 10
  let s3 := s2 - (if keywords.missing_count > 10 then 20
    else if keywords.missing_count > 5 then 10 else 0)
  max 0 (min 100 s3)

/-- `ResumeRecommender.generate_recommendations` over an analysis
dictionary; `none` models the `KeyError` escaping from the keyword
categorization. -/
noncomputable def generate_recommendations (analysis : List (String × PyVal)) :
    Option Recommendations :=
  match analyze_keywords
      (asStrList (pyGet analysis "missing_keywords" (PyVal.strList [])))
      (asStrList (pyGet analysis "resume_keywords" (PyVal.strList []))) with
  | none => none
  | some kw =>
    some { priority := determine_priority (asNum (pyGet analysis "ats_score" (PyVal.num 0)))
           sections := analyze_sections analysis
           keywords := kw
           format := analyze_format analysis
           content := analyze_content analysis
           ats_optimization := analyze_ats_optimization analysis
           overall_score := calculate_recommendation_score
             (determine_priority (asNum (pyGet analysis "ats_score" (PyVal.num 0))))
             (analyze_sections analysis) kw }

lemma isSpacePy_wsToSpace (c : Char) : isSpacePy (wsToSpace c) = isSpacePy c := by
  unfold wsToSpace
  by_cases h : isSpacePy c
  · simp [h]
    rfl
  · simp [h]

lemma squeeze_map_wsToSpace (l : List Char) :
    squeeze (l.map wsToSpace) = squeeze l := by
  induction l with
  | nil => rfl
  | cons c cs ih =>
    simp only [List.map_cons, squeeze, ih, isSpacePy_wsToSpace]
    by_cases h : isSpacePy c
    · simp [h]
    · simp [h, wsToSpace]

lemma isAlphanum_not_space {c : Char} (h : isSpacePy c = true) : c.isAlphanum = false := by
  unfold isSpacePy at h
  simp only [Bool.or_eq_true, decide_eq_true_eq] at h
  rcases h with ((((h | h) | h) | h) | h) | h <;> subst h <;> decide

lemma not_space_ne_space {c : Char} (h : isSpacePy c = false) : c ≠ ' ' := by
  intro hc
  subst hc
  exact absurd h (by decide)

lemma wsToSpace_replaceNonAlnum (c : Char) :
    wsToSpace (replaceNonAlnum c) = replaceNonAlnumSpec c := by
  unfold replaceNonAlnum replaceNonAlnumSpec wsToSpace
  by_cases ha : c.isAlphanum
  · have hs : isSpacePy c = false := by
      by_contra hcon
      simp only [Bool.not_eq_false] at hcon
      rw [isAlphanum_not_space hcon] at ha
      exact Bool.false_ne_true ha
    simp [ha, hs]
  · simp only [Bool.not_eq_true] at ha
    by_cases hs : isSpacePy c
    · by_cases hsp : c = ' '
      · subst hsp; simp
      · simp [ha, hs, hsp]
    · have hne : c ≠ ' ' := not_space_ne_space (by simpa using hs)
      simp [ha, hs, hne]

/-- C6: for every input text, `preprocess_text` returns exactly the
normalization the specification describes (lowercase, replace characters
outside `[a-zA-Z0-9 ]` by a space, collapse whitespace runs, trim), and
empty input yields the empty string; as a total Lean function it never
fails. -/
theorem c6_preprocess_matches_spec (text : String) :
    preprocess_text text = normalizeSpec text ∧ preprocess_text "" = "" := by
  constructor
  · unfold preprocess_text normalizeSpec
    by_cases h : text = ""
    · subst h; rfl
    · simp only [h, if_false]
      have hmap : ∀ m : List Char,
          m.map replaceNonAlnumSpec = (m.map replaceNonAlnum).map wsToSpace := by
        intro m
        rw [List.map_map]
        apply List.map_congr_left
        intro c _
        exact (wsToSpace_replaceNonAlnum c).symm
      rw [hmap, squeeze_map_wsToSpace]
  · rfl

example : preprocess_text "  Hello,   WORLD!! 42\t" = "hello world 42" := by decide

example : normalizeSpec "a+b=c" = "a b c" := by decide

lemma insertLex_perm (p : Nat × String × Nat) (l : List (Nat × String × Nat)) :
    List.Perm (insertLex p l) (p :: l) := by
  induction l with
  | nil => exact List.Perm.refl _
  | cons q qs ih =>
    unfold insertLex
    split
    · exact ((ih.cons q).trans (List.Perm.swap p q qs))
    · exact List.Perm.refl _

lemma sortLex_perm (l : List (Nat × String × Nat)) : List.Perm (sortLex l) l := by
  induction l with
  | nil => exact List.Perm.refl _
  | cons p ps ih => exact (insertLex_perm p (sortLex ps)).trans (ih.cons p)

lemma map_snd_insertLex (p : Nat × String × Nat) (l : List (Nat × String × Nat))
    (h : ∀ q ∈ l, p.1 < q.1) :
    (insertLex p l).map Prod.snd = insertDesc p.2 (l.map Prod.snd) := by
  induction l with
  | nil => rfl
  | cons q qs ih =>
    have hq : p.1 < q.1 := h q (List.mem_cons_self q qs)
    have hcond : (p.2.2 < q.2.2 ∨ (p.2.2 = q.2.2 ∧ q.1 < p.1)) ↔ p.2.2 < q.2.2 := by
      constructor
      · rintro (hlt | ⟨_, hidx⟩)
        · exact hlt
        · exact absurd hidx (Nat.lt_asymm hq)
      · exact Or.inl
    have e1 : insertLex p (q :: qs)
        = if p.2.2 < q.2.2 ∨ (p.2.2 = q.2.2 ∧ q.1 < p.1) then q :: insertLex p qs
          else p :: q :: qs := rfl
    have e2 : insertDesc p.2 (q.2 :: qs.map Prod.snd)
        = if p.2.2 < q.2.2 then q.2 :: insertDesc p.2 (qs.map Prod.snd)
          else p.2 :: q.2 :: qs.map Prod.snd := rfl
    rw [List.map_cons, e1, e2]
    by_cases hc : p.2.2 < q.2.2
    · rw [if_pos (hcond.mpr hc), if_pos hc, List.map_cons,
        ih (fun r hr => h r (List.mem_cons_of_mem q hr))]
    · rw [if_neg (fun hh => hc (hcond.mp hh)), if_neg hc]
      simp only [List.map_cons]

lemma map_snd_sortLex (l : List (Nat × String × Nat))
    (h : l.Pairwise (fun a b => a.1 < b.1)) :
    (sortLex l).map Prod.snd = sortDesc (l.map Prod.snd) := by
  induction l with
  | nil => rfl
  | cons p ps ih =>
    rw [List.pairwise_cons] at h
    unfold sortLex sortDesc
    rw [map_snd_insertLex p (sortLex ps)
      (fun q hq => h.1 q ((sortLex_perm ps).mem_iff.mp hq)),
      ih h.2]
    simp only [List.map_cons]

lemma mem_withIdx_le {α : Type} (i : Nat) (l : List α) :
    ∀ q ∈ withIdx i l, i ≤ q.1 := by
  induction l generalizing i with
  | nil => intro q hq; cases hq
  | cons a as ih =>
    intro q hq
    cases hq with
    | head => exact Nat.le_refl i
    | tail _ hq =>
      exact Nat.le_of_lt (Nat.lt_of_lt_of_le (Nat.lt_succ_self i) (ih (i + 1) q hq))

lemma pairwise_withIdx {α : Type} (i : Nat) (l : List α) :
    (withIdx i l).Pairwise (fun a b => a.1 < b.1) := by
  induction l generalizing i with
  | nil => exact List.Pairwise.nil
  | cons a as ih =>
    refine List.Pairwise.cons ?_ (ih (i + 1))
    intro q hq
    exact Nat.lt_of_lt_of_le (Nat.lt_succ_self i) (mem_withIdx_le (i + 1) as q hq)

lemma map_snd_withIdx {α : Type} (i : Nat) (l : List α) :
    (withIdx i l).map Prod.snd = l := by
  induction l generalizing i with
  | nil => rfl
  | cons a as ih => simp only [withIdx, List.map_cons, ih]

/-- C5: keyword extraction is exactly the specification's algorithm:
tokenize, discard stopwords / short tokens / non-alphabetic tokens, count
frequencies, sort by frequency descending with first-occurrence order as
the deterministic tie-break (the stability of Python's `sorted` over the
insertion-ordered `keyword_freq` dict realises precisely this tie-break),
and return the first `top_k` tokens; empty input yields the empty list. -/
theorem c5_extract_keywords_spec (text : String) (top_k : Nat) :
    extract_keywords text top_k = extractKeywordsSpec text top_k ∧
      extract_keywords "" top_k = [] := by
  refine ⟨?_, rfl⟩
  unfold extract_keywords extractKeywordsSpec
  by_cases h : text = ""
  · simp [h]
  · simp only [h, if_false]
    have hfun : (fun t : Nat × String × Nat => t.2.1) = Prod.fst ∘ Prod.snd := rfl
    rw [hfun, ← List.map_map]
    simp only [List.map_take]
    rw [map_snd_sortLex _ (pairwise_withIdx 0 _), map_snd_withIdx]

example : extract_keywords "the cat saw the dog the dog ran" 20
    = ["dog", "cat", "saw", "ran"] := by decide

example : extract_keywords "aaa bbb aaa ccc bbb aaa" 2 = ["aaa", "bbb"] := by decide

lemma insertDesc_perm (p : String × Nat) (l : List (String × Nat)) :
    List.Perm (insertDesc p l) (p :: l) := by
  induction l with
  | nil => exact List.Perm.refl _
  | cons q qs ih =>
    unfold insertDesc
    split
    · exact ((ih.cons q).trans (List.Perm.swap p q qs))
    · exact List.Perm.refl _

lemma sortDesc_perm (l : List (String × Nat)) : List.Perm (sortDesc l) l := by
  induction l with
  | nil => exact List.Perm.refl _
  | cons p ps ih => exact (insertDesc_perm p (sortDesc ps)).trans (ih.cons p)

lemma mem_keys_bump (a k : String) (l : List (String × Nat)) :
    a ∈ (bump k l).map Prod.fst ↔ a ∈ l.map Prod.fst ∨ a = k := by
  induction l with
  | nil => simp [bump, eq_comm]
  | cons q qs ih =>
    unfold bump
    by_cases h : q.1 = k
    · rw [if_pos h]
      subst h
      simp only [List.map_cons, List.mem_cons]
      constructor
      · intro hc; exact Or.elim hc (fun he => Or.inl (Or.inl he)) (fun hm => Or.inl (Or.inr hm))
      · rintro ((he | hm) | he)
        · exact Or.inl he
        · exact Or.inr hm
        · exact Or.inl he
    · rw [if_neg h]
      simp only [List.map_cons, List.mem_cons, ih]
      tauto

lemma nodup_keys_bump (k : String) (l : List (String × Nat))
    (h : (l.map Prod.fst).Nodup) : ((bump k l).map Prod.fst).Nodup := by
  induction l with
  | nil => simp [bump]
  | cons q qs ih =>
    simp only [List.map_cons, List.nodup_cons] at h
    unfold bump
    by_cases hq : q.1 = k
    · rw [if_pos hq]
      simp only [List.map_cons, List.nodup_cons]
      exact h
    · rw [if_neg hq]
      simp only [List.map_cons, List.nodup_cons, mem_keys_bump]
      exact ⟨fun hc => Or.elim hc h.1 hq, ih h.2⟩

lemma nodup_keys_freqList (toks : List String) :
    ((freqList toks).map Prod.fst).Nodup := by
  have haux : ∀ (ts : List String) (acc : List (String × Nat)),
      (acc.map Prod.fst).Nodup →
      ((ts.foldl (fun a t => bump t a) acc).map Prod.fst).Nodup := by
    intro ts
    induction ts with
    | nil => intro acc h; exact h
    | cons t ts ih =>
      intro acc h
      exact ih (bump t acc) (nodup_keys_bump t acc h)
  exact haux toks [] (by simp)

/-- The keyword list returned by `extract_keywords` never repeats a token
(keys of the frequency dict are distinct, and sorting permutes them). -/
lemma extract_keywords_nodup (text : String) (top_k : Nat) :
    (extract_keywords text top_k).Nodup := by
  unfold extract_keywords
  by_cases h : text = ""
  · simp [h]
  · simp only [h, if_false]
    set fl := freqList ((wordTokenize (pyLower text)).filter keepToken) with hfl
    have hperm : List.Perm ((sortDesc fl).map Prod.fst) (fl.map Prod.fst) :=
      (sortDesc_perm fl).map Prod.fst
    have hnd : ((sortDesc fl).map Prod.fst).Nodup :=
      (List.Perm.nodup_iff hperm).mpr (nodup_keys_freqList _)
    rw [List.map_take]
    exact hnd.sublist (List.take_sublist top_k _)

/-- C3 counterexample: `list(set)` enumeration is hash-dependent, not
frequency-ordered.  Reversal is an admissible set enumeration, and under it
the missing keywords for job text "aaa aaa bbb" (where "aaa" occurs twice
and "bbb" once) come out as ["bbb", "aaa"] — not in descending
job-description frequency as the claim states. -/
theorem c3_counterexample :
    SetEnum List.reverse ∧
      find_missing_keywords List.reverse "" "aaa aaa bbb" = ["bbb", "aaa"] ∧
      ¬ sortedByJobFreq "aaa aaa bbb"
        (find_missing_keywords List.reverse "" "aaa aaa bbb") :=
  ⟨fun l => List.reverse_perm l, by decide, by unfold sortedByJobFreq; decide⟩

/-- C3 (amended): the missing-keywords operation returns the elements of
the set difference job-keywords minus resume-keywords in an unspecified
(hash-dependent) enumeration order, truncated to at most 10 duplicate-free
tokens; when the whole difference fits in the cap, its membership is exactly
the set difference.  No frequency ordering is imposed. -/
theorem c3_missing_keywords (enum : List String → List String)
    (henum : SetEnum enum) (resume job : String) :
    (find_missing_keywords enum resume job).length ≤ 10 ∧
      (find_missing_keywords enum resume job).Nodup ∧
      (∀ t ∈ find_missing_keywords enum resume job,
        t ∈ extract_keywords job 20 ∧ t ∉ extract_keywords resume 20) ∧
      (((extract_keywords job 20).filter
          (fun kw => decide (kw ∉ extract_keywords resume 20))).length ≤ 10 →
        ∀ t, t ∈ find_missing_keywords enum resume job ↔
          (t ∈ extract_keywords job 20 ∧ t ∉ extract_keywords resume 20)) := by
  set diff := (extract_keywords job 20).filter
    (fun kw => decide (kw ∉ extract_keywords resume 20)) with hdiff
  have hperm : List.Perm (enum diff) diff := henum diff
  have hmemdiff : ∀ t, t ∈ diff ↔
      (t ∈ extract_keywords job 20 ∧ t ∉ extract_keywords resume 20) := by
    intro t
    rw [hdiff, List.mem_filter]
    simp only [decide_eq_true_eq]
  refine ⟨?_, ?_, ?_, ?_⟩
  · exact List.length_take_le 10 _
  · have hnd : diff.Nodup := (extract_keywords_nodup job 20).filter _
    exact ((hperm.nodup_iff.mpr hnd)).sublist (List.take_sublist 10 _)
  · intro t ht
    have : t ∈ enum diff := List.mem_of_mem_take ht
    exact (hmemdiff t).mp (hperm.mem_iff.mp this)
  · intro hlen t
    have hlen' : (enum diff).length ≤ 10 := by rw [hperm.length_eq]; exact hlen
    unfold find_missing_keywords
    rw [← hdiff, List.take_of_length_le hlen', hperm.mem_iff]
    exact hmemdiff t

/-- C3 witness: the amended missing-keywords theorem instantiated with the
identity enumeration (trivially admissible) on concrete texts. -/
theorem c3_missing_keywords_witness :
    SetEnum (fun l => l) ∧
      ((find_missing_keywords (fun l => l) "python developer"
          "python engineer aws").length ≤ 10 ∧
        (find_missing_keywords (fun l => l) "python developer"
          "python engineer aws").Nodup ∧
        (∀ t ∈ find_missing_keywords (fun l => l) "python developer"
          "python engineer aws",
          t ∈ extract_keywords "python engineer aws" 20 ∧
            t ∉ extract_keywords "python developer" 20) ∧
        (((extract_keywords "python engineer aws" 20).filter
            (fun kw => decide (kw ∉ extract_keywords "python developer" 20))).length ≤ 10 →
          ∀ t, t ∈ find_missing_keywords (fun l => l) "python developer"
            "python engineer aws" ↔
            (t ∈ extract_keywords "python engineer aws" 20 ∧
              t ∉ extract_keywords "python developer" 20))) :=
  ⟨fun l => List.Perm.refl l,
    c3_missing_keywords (fun l => l) (fun l => List.Perm.refl l)
      "python developer" "python engineer aws"⟩

example : find_missing_keywords (fun l => l) "python developer"
    "python engineer aws" = ["engineer", "aws"] := by decide

/-- C9: TF-IDF similarity is symmetric in its two text arguments (exactly,
in the exact-real model; the spec asks it only up to floating tolerance). -/
theorem c9_tfidf_symmetric (s : Scorer) (a b : String) :
    calculate_tfidf_similarity s a b = calculate_tfidf_similarity s b a := by
  have hc : ∀ {n : ℕ} (u v : Fin n → ℝ), cosineSim u v = cosineSim v u := by
    intro n u v
    unfold cosineSim dotProd
    rw [mul_comm (Real.sqrt _)]
    congr 1
    exact Finset.sum_congr rfl (fun i _ => mul_comm _ _)
  unfold calculate_tfidf_similarity
  by_cases h1 : preprocess_text a = "" <;> by_cases h2 : preprocess_text b = "" <;>
    simp [h1, h2, hc]

/-- C8: the keyword overlap percentage is `100 * overlap / |job_keywords|`,
is defined as 0 when the job keyword list is empty (the guard makes the
division-by-zero case unreachable), and always lies in `[0, 100]`. -/
theorem c8_keyword_coverage (resume job : String) :
    (extract_keywords job 20 = [] → keyword_coverage resume job = 0) ∧
      (extract_keywords job 20 ≠ [] →
        keyword_coverage resume job * ((extract_keywords job 20).length : ℝ)
          = 100 * (keyword_overlap resume job : ℝ)) ∧
      0 ≤ keyword_coverage resume job ∧ keyword_coverage resume job ≤ 100 := by
  have hov : keyword_overlap resume job ≤ (extract_keywords job 20).length :=
    le_trans (Finset.card_le_card Finset.inter_subset_right) (List.toFinset_card_le _)
  refine ⟨fun h => by simp [keyword_coverage, h], fun h => ?_, ?_, ?_⟩
  · have hlen : (0 : ℝ) < ((extract_keywords job 20).length : ℝ) := by
      have := List.length_pos.mpr h
      exact_mod_cast this
    simp only [keyword_coverage, if_pos h]
    field_simp
    ring
  · unfold keyword_coverage
    split
    · positivity
    · exact le_refl 0
  · unfold keyword_coverage
    split
    case isTrue h =>
      have hlen : (0 : ℝ) < ((extract_keywords job 20).length : ℝ) := by
        have := List.length_pos.mpr h
        exact_mod_cast this
      have hle : (keyword_overlap resume job : ℝ) / ((extract_keywords job 20).length : ℝ) ≤ 1 :=
        (div_le_one hlen).mpr (by exact_mod_cast hov)
      nlinarith
    case isFalse h => norm_num

/-- C8 witness: concrete texts with a nonempty job keyword list; the
coverage identity from the theorem holds there (overlap is 1 of 3 job
keywords, so coverage times 3 equals 100). -/
theorem c8_keyword_coverage_witness :
    extract_keywords "python engineer aws" 20 ≠ [] ∧
      keyword_coverage "python developer" "python engineer aws"
          * ((extract_keywords "python engineer aws" 20).length : ℝ)
        = 100 * (keyword_overlap "python developer" "python engineer aws" : ℝ) ∧
      extract_keywords "" 20 = [] ∧ keyword_coverage "python developer" "" = 0 :=
  ⟨by decide,
    (c8_keyword_coverage "python developer" "python engineer aws").2.1 (by decide),
    rfl,
    (c8_keyword_coverage "python developer" "").1 rfl⟩

lemma dotProd_nonneg {n : ℕ} {u v : Fin n → ℝ} (hu : ∀ i, 0 ≤ u i) (hv : ∀ i, 0 ≤ v i) :
    0 ≤ dotProd u v :=
  Finset.sum_nonneg fun i _ => mul_nonneg (hu i) (hv i)

lemma dotProd_self_nonneg {n : ℕ} (u : Fin n → ℝ) : 0 ≤ dotProd u u :=
  Finset.sum_nonneg fun i _ => mul_self_nonneg (u i)

/-- Cauchy–Schwarz in the form needed for the cosine bound. -/
lemma dotProd_le_sqrt_mul_sqrt {n : ℕ} (u v : Fin n → ℝ)
    (hu : ∀ i, 0 ≤ u i) (hv : ∀ i, 0 ≤ v i) :
    dotProd u v ≤ Real.sqrt (dotProd u u) * Real.sqrt (dotProd v v) := by
  have cs := Finset.sum_mul_sq_le_sq_mul_sq Finset.univ u v
  have h1 : dotProd u v ^ 2 ≤ dotProd u u * dotProd v v := by
    unfold dotProd
    simpa [sq] using cs
  have h2 : dotProd u v ≤ Real.sqrt (dotProd u u * dotProd v v) :=
    (Real.le_sqrt (dotProd_nonneg hu hv)
      (mul_nonneg (dotProd_self_nonneg u) (dotProd_self_nonneg v))).mpr h1
  rwa [Real.sqrt_mul (dotProd_self_nonneg u)] at h2

/-- The cosine similarity of two entrywise-nonnegative vectors lies in
`[0, 1]` (including the zero-vector convention). -/
lemma cosineSim_nonneg_le_one {n : ℕ} (u v : Fin n → ℝ)
    (hu : ∀ i, 0 ≤ u i) (hv : ∀ i, 0 ≤ v i) :
    0 ≤ cosineSim u v ∧ cosineSim u v ≤ 1 := by
  have hden : 0 ≤ Real.sqrt (dotProd u u) * Real.sqrt (dotProd v v) :=
    mul_nonneg (Real.sqrt_nonneg _) (Real.sqrt_nonneg _)
  exact ⟨div_nonneg (dotProd_nonneg hu hv) hden,
    div_le_one_of_le₀ (dotProd_le_sqrt_mul_sqrt u v hu hv) hden⟩

lemma tfidfVec_nonneg (s : Scorer) (hidf : ∀ i, 0 ≤ s.idf i) (text : String) :
    ∀ i, 0 ≤ tfidfVec s text i :=
  fun i => mul_nonneg (Nat.cast_nonneg _) (hidf i)

/-- TF-IDF similarity lies in `[0, 1]` whenever the fitted IDF weights are
nonnegative (as sklearn's always are). -/
lemma tfidf_similarity_mem (s : Scorer) (hidf : ∀ i, 0 ≤ s.idf i) (resume job : String) :
    0 ≤ calculate_tfidf_similarity s resume job ∧
      calculate_tfidf_similarity s resume job ≤ 1 := by
  unfold calculate_tfidf_similarity
  by_cases h : preprocess_text resume = "" ∨ preprocess_text job = ""
  · rw [if_pos h]
    norm_num
  · rw [if_neg h]
    exact cosineSim_nonneg_le_one _ _ (tfidfVec_nonneg s hidf _) (tfidfVec_nonneg s hidf _)

lemma roundAboveBound (x : ℝ) : (round x : ℝ) ≤ x + 1 / 2 := by
  have h := abs_sub_round x
  rw [abs_le] at h
  linarith [h.1]

lemma roundBelowBound (x : ℝ) : x - 1 / 2 ≤ (round x : ℝ) := by
  have h := abs_sub_round x
  rw [abs_le] at h
  linarith [h.2]

lemma pyRound_nonneg {y : ℝ} (hy : 0 ≤ y) : 0 ≤ pyRound y := by
  unfold pyRound
  split
  case isTrue hf =>
    have hfl : (0 : ℤ) ≤ ⌊y⌋ := Int.floor_nonneg.mpr hy
    have hfr : y - (⌊y⌋ : ℝ) = 1 / 2 := by
      have he : Int.fract y = y - (⌊y⌋ : ℝ) := rfl
      linarith [he ▸ hf]
    have hyy : (1 : ℝ) / 2 ≤ y := by
      have : (0 : ℝ) ≤ (⌊y⌋ : ℝ) := by exact_mod_cast hfl
      linarith
    have h1 : (y / 2 : ℝ) - 1 / 2 ≤ (round (y / 2) : ℝ) := roundBelowBound _
    have h2 : (-1 : ℝ) < 2 * (round (y / 2) : ℝ) := by linarith
    have h3 : (-1 : ℤ) < 2 * round (y / 2) := by exact_mod_cast h2
    omega
  case isFalse hf =>
    have h1 : (y : ℝ) - 1 / 2 ≤ (round y : ℝ) := roundBelowBound _
    have h2 : (-1 : ℝ) < (round y : ℝ) := by linarith
    have h3 : (-1 : ℤ) < round y := by exact_mod_cast h2
    omega

lemma pyRound_le {y : ℝ} {B : ℤ} (hy : y ≤ (B : ℝ)) : pyRound y ≤ B := by
  unfold pyRound
  split
  case isTrue hf =>
    have hfr : y - (⌊y⌋ : ℝ) = 1 / 2 := by
      have : Int.fract y = y - (⌊y⌋ : ℝ) := rfl
      linarith [this ▸ hf]
    have hfB : (⌊y⌋ : ℝ) + 1 / 2 ≤ (B : ℝ) := by linarith
    have hfloorB : ⌊y⌋ < B := by
      have : ((⌊y⌋ : ℤ) : ℝ) < (B : ℝ) := by linarith
      exact_mod_cast this
    have h1 : (round (y / 2) : ℝ) ≤ y / 2 + 1 / 2 := roundAboveBound _
    have h2 : (2 * round (y / 2) : ℝ) ≤ y + 1 := by linarith
    have h3 : (2 * round (y / 2) : ℝ) < (⌊y⌋ : ℝ) + 2 := by linarith
    have h4 : 2 * round (y / 2) < ⌊y⌋ + 2 := by exact_mod_cast h3
    omega
  case isFalse hf =>
    have h1 : (round y : ℝ) ≤ y + 1 / 2 := roundAboveBound _
    have h2 : (round y : ℝ) < (B : ℝ) + 1 := by linarith
    have h3 : round y < B + 1 := by exact_mod_cast h2
    omega

lemma pyRound_zero : pyRound 0 = 0 := by
  unfold pyRound
  rw [if_neg (by norm_num [Int.fract_zero])]
  exact round_zero

lemma pyRoundTo_zero (d : ℕ) : pyRoundTo 0 d = 0 := by
  unfold pyRoundTo
  rw [zero_mul, pyRound_zero]
  norm_num

/-- The `ats_score` field of the analysis dictionary is the rounded
combined similarity times 100. -/
lemma ats_field_eq (s : Scorer) (enum : List String → List String) (resume job : String) :
    asNum (pyGet (calculate_ats_score s enum resume job) "ats_score" (PyVal.num 0))
      = pyRoundTo ((calculate_hybrid_similarity s resume job).combined_similarity * 100) 2 :=
  rfl

/-- The transformer similarity lies in `[0, 1]` whenever the loaded model
only reports values in `[0, 1]`. -/
lemma hf_similarity_mem (s : Scorer)
    (hsem : ∀ f, s.hf_model = some f → ∀ a b, 0 ≤ f a b ∧ f a b ≤ 1)
    (resume job : String) :
    0 ≤ calculate_huggingface_similarity s resume job ∧
      calculate_huggingface_similarity s resume job ≤ 1 := by
  unfold calculate_huggingface_similarity
  cases hm : s.hf_model with
  | none => norm_num
  | some f =>
    dsimp only
    by_cases h : preprocess_text resume = "" ∨ preprocess_text job = ""
    · rw [if_pos h]
      norm_num
    · rw [if_neg h]
      exact hsem f hm _ _

/-- The combined similarity lies in `[0, 1]` under the same model
hypotheses, in both the hybrid and the lexical-only branch. -/
lemma combined_similarity_mem (s : Scorer)
    (hidf : ∀ i, 0 ≤ s.idf i)
    (hsem : ∀ f, s.hf_model = some f → ∀ a b, 0 ≤ f a b ∧ f a b ≤ 1)
    (resume job : String) :
    0 ≤ (calculate_hybrid_similarity s resume job).combined_similarity ∧
      (calculate_hybrid_similarity s resume job).combined_similarity ≤ 1 := by
  have ht := tfidf_similarity_mem s hidf resume job
  have hh := hf_similarity_mem s hsem resume job
  have hh0 : 0 ≤ (if s.use_huggingface then calculate_huggingface_similarity s resume job
      else 0) ∧
      (if s.use_huggingface then calculate_huggingface_similarity s resume job else 0) ≤ 1 := by
    split
    · exact hh
    · norm_num
  unfold calculate_hybrid_similarity
  split
  · constructor
    · simp only
      nlinarith [hh0.1, hh0.2, ht.1, ht.2]
    · simp only
      nlinarith [hh0.1, hh0.2, ht.1, ht.2]
  · exact ht

/-- Both similarities, hence the combined one, vanish when either input
normalizes to the empty string. -/
lemma combined_similarity_empty (s : Scorer) (resume job : String)
    (h : preprocess_text resume = "" ∨ preprocess_text job = "") :
    (calculate_hybrid_similarity s resume job).combined_similarity = 0 := by
  have ht : calculate_tfidf_similarity s resume job = 0 := by
    unfold calculate_tfidf_similarity
    rw [if_pos h]
  have hh : calculate_huggingface_similarity s resume job = 0 := by
    unfold calculate_huggingface_similarity
    cases s.hf_model with
    | none => rfl
    | some f =>
      dsimp only
      rw [if_pos h]
  unfold calculate_hybrid_similarity
  split
  · simp only [ht, hh]
    split <;> norm_num
  · exact ht

/-- C1 (amended): the aggregation formulas hold exactly as claimed —
`combined = 0.7·semantic + 0.3·lexical` when a transformer model is in use,
`combined = lexical` otherwise, and the returned `ats_score` is
`round(combined·100, 2)` — but the method strings stored by the code are
"hybrid_huggingface_tfidf" and "tfidf_only" (the spec's enum labels
`hybrid` / `lexical_only` name these two branches). -/
theorem c1_hybrid_aggregation (s : Scorer) (enum : List String → List String)
    (resume job : String) :
    ((s.use_huggingface && s.hf_model.isSome) = true →
      (calculate_hybrid_similarity s resume job).combined_similarity
          = 0.7 * calculate_huggingface_similarity s resume job
            + 0.3 * calculate_tfidf_similarity s resume job ∧
        (calculate_hybrid_similarity s resume job).method = "hybrid_huggingface_tfidf") ∧
    ((s.use_huggingface && s.hf_model.isSome) = false →
      (calculate_hybrid_similarity s resume job).combined_similarity
          = calculate_tfidf_similarity s resume job ∧
        (calculate_hybrid_similarity s resume job).method = "tfidf_only") ∧
    asNum (pyGet (calculate_ats_score s enum resume job) "ats_score" (PyVal.num 0))
      = pyRoundTo ((calculate_hybrid_similarity s resume job).combined_similarity * 100) 2 := by
  refine ⟨?_, ?_, ats_field_eq s enum resume job⟩
  · intro h
    have huse : s.use_huggingface = true := (Bool.and_eq_true _ _ |>.mp h).1
    unfold calculate_hybrid_similarity
    rw [h, if_pos rfl]
    rw [huse]
    exact ⟨by norm_num, rfl⟩
  · intro h
    unfold calculate_hybrid_similarity
    rw [h]
    exact ⟨rfl, rfl⟩

/-- C1 witness: the aggregation theorem applied to concrete scorers — one
with a transformer model (hypothesis `use_huggingface && isSome = true`
discharged by `rfl`) and one without. -/
theorem c1_hybrid_aggregation_witness :
    (scorerHyb.use_huggingface && scorerHyb.hf_model.isSome) = true ∧
      ((calculate_hybrid_similarity scorerHyb "" "").combined_similarity
          = 0.7 * calculate_huggingface_similarity scorerHyb "" ""
            + 0.3 * calculate_tfidf_similarity scorerHyb "" "" ∧
        (calculate_hybrid_similarity scorerHyb "" "").method = "hybrid_huggingface_tfidf") ∧
      (scorerLex.use_huggingface && scorerLex.hf_model.isSome) = false ∧
      ((calculate_hybrid_similarity scorerLex "" "").combined_similarity
          = calculate_tfidf_similarity scorerLex "" "" ∧
        (calculate_hybrid_similarity scorerLex "" "").method = "tfidf_only") :=
  ⟨rfl, (c1_hybrid_aggregation scorerHyb (fun l => l) "" "").1 rfl,
    rfl, (c1_hybrid_aggregation scorerLex (fun l => l) "" "").2.1 rfl⟩

/-- C1 counterexample: the claim's method strings never occur.  With the
semantic engine unavailable the code stores "tfidf_only", not
"lexical_only"; with it available it stores "hybrid_huggingface_tfidf",
not "hybrid". -/
theorem c1_counterexample :
    (calculate_hybrid_similarity scorerLex "abc" "abc").method = "tfidf_only" ∧
      (calculate_hybrid_similarity scorerLex "abc" "abc").method ≠ "lexical_only" ∧
      (calculate_hybrid_similarity scorerHyb "abc" "abc").method
          = "hybrid_huggingface_tfidf" ∧
      (calculate_hybrid_similarity scorerHyb "abc" "abc").method ≠ "hybrid" := by
  have h1 : (calculate_hybrid_similarity scorerLex "abc" "abc").method = "tfidf_only" := rfl
  have h2 : (calculate_hybrid_similarity scorerHyb "abc" "abc").method
      = "hybrid_huggingface_tfidf" := rfl
  refine ⟨h1, ?_, h2, ?_⟩
  · rw [h1]
    decide
  · rw [h2]
    decide

/-- C2 (amended): the `ats_score` field lies in `[0, 100]` for every pair
of input texts provided the semantic model only reports cosines in
`[0, 1]` (the IDF weights being nonnegative, as sklearn's always are); and
it equals 0 whenever either input normalizes to the empty string.  Without
the nonnegativity proviso the bound fails: see the counterexample, where a
legitimate negative embedding cosine drives the score below 0 (the code
never clamps). -/
theorem c2_ats_score_range (s : Scorer) (enum : List String → List String)
    (resume job : String)
    (hidf : ∀ i, 0 ≤ s.idf i)
    (hsem : ∀ f, s.hf_model = some f → ∀ a b, 0 ≤ f a b ∧ f a b ≤ 1) :
    (0 ≤ asNum (pyGet (calculate_ats_score s enum resume job) "ats_score" (PyVal.num 0)) ∧
      asNum (pyGet (calculate_ats_score s enum resume job) "ats_score" (PyVal.num 0)) ≤ 100) ∧
    ((preprocess_text resume = "" ∨ preprocess_text job = "") →
      asNum (pyGet (calculate_ats_score s enum resume job) "ats_score" (PyVal.num 0)) = 0) := by
  rw [ats_field_eq]
  have hc := combined_similarity_mem s hidf hsem resume job
  constructor
  · unfold pyRoundTo
    have hlow : (0 : ℝ) ≤ (calculate_hybrid_similarity s resume job).combined_similarity
        * 100 * 10 ^ 2 := by nlinarith [hc.1]
    have hhigh : (calculate_hybrid_similarity s resume job).combined_similarity
        * 100 * 10 ^ 2 ≤ ((10000 : ℤ) : ℝ) := by push_cast; nlinarith [hc.2]
    have h1 : 0 ≤ pyRound ((calculate_hybrid_similarity s resume job).combined_similarity
        * 100 * 10 ^ 2) := pyRound_nonneg hlow
    have h2 : pyRound ((calculate_hybrid_similarity s resume job).combined_similarity
        * 100 * 10 ^ 2) ≤ 10000 := pyRound_le hhigh
    constructor
    · apply div_nonneg _ (by norm_num)
      exact_mod_cast h1
    · rw [div_le_iff₀ (by norm_num : (0 : ℝ) < 10 ^ 2)]
      have : ((pyRound ((calculate_hybrid_similarity s resume job).combined_similarity
          * 100 * 10 ^ 2) : ℤ) : ℝ) ≤ ((10000 : ℤ) : ℝ) := by exact_mod_cast h2
      push_cast at this ⊢
      linarith
  · intro h
    rw [combined_similarity_empty s resume job h, zero_mul, pyRoundTo_zero]

/-- C2 witness: the range theorem applied to the concrete lexical-only
scorer (nonnegative IDF weights; the semantic hypothesis is vacuous since
no model is loaded), plus the empty-input case evaluating to score 0. -/
theorem c2_ats_score_range_witness :
    (∀ i, 0 ≤ scorerLex.idf i) ∧
      (∀ f, scorerLex.hf_model = some f → ∀ a b, 0 ≤ f a b ∧ f a b ≤ 1) ∧
      (0 ≤ asNum (pyGet (calculate_ats_score scorerLex (fun l => l) "aaa" "bbb")
          "ats_score" (PyVal.num 0)) ∧
        asNum (pyGet (calculate_ats_score scorerLex (fun l => l) "aaa" "bbb")
          "ats_score" (PyVal.num 0)) ≤ 100) ∧
      (preprocess_text "" = "" ∨ preprocess_text "bbb" = "") ∧
      asNum (pyGet (calculate_ats_score scorerLex (fun l => l) "" "bbb")
        "ats_score" (PyVal.num 0)) = 0 := by
  have hidf : ∀ i, 0 ≤ scorerLex.idf i := fun i => zero_le_one
  have hsem : ∀ f, scorerLex.hf_model = some f → ∀ a b, 0 ≤ f a b ∧ f a b ≤ 1 :=
    fun f hf => Option.noConfusion hf
  exact ⟨hidf, hsem,
    (c2_ats_score_range scorerLex (fun l => l) "aaa" "bbb" hidf hsem).1,
    Or.inl rfl,
    (c2_ats_score_range scorerLex (fun l => l) "" "bbb" hidf hsem).2 (Or.inl rfl)⟩

/-- C2 counterexample: with a loaded transformer model that reports the
legitimate cosine value −1 for the (nonempty, identical) preprocessed
texts, the hybrid score is 0.7·(−1) + 0.3·1 = −0.4 and the returned
`ats_score` is −40 — outside `[0, 100]`.  The code contains no clamping,
so the claimed invariant does not hold for every input pair. -/
theorem c2_counterexample :
    (∀ g, scorerNeg.hf_model = some g → ∀ a b, -1 ≤ g a b ∧ g a b ≤ 1) ∧
      asNum (pyGet (calculate_ats_score scorerNeg (fun l => l) "aaa" "aaa")
        "ats_score" (PyVal.num 0)) < 0 := by
  constructor
  · intro g hg a b
    have he : (fun _ _ => (-1 : ℝ) : String → String → ℝ) = g := Option.some.inj hg
    subst he
    norm_num
  · have hpp : preprocess_text "aaa" = "aaa" := by decide
    have hne : ¬(preprocess_text "aaa" = "" ∨ preprocess_text "aaa" = "") := by
      rw [hpp]
      decide
    have hhf : calculate_huggingface_similarity scorerNeg "aaa" "aaa" = -1 := by
      unfold calculate_huggingface_similarity
      dsimp only [scorerNeg]
      rw [if_neg hne]
    have hdot : dotProd (tfidfVec scorerNeg (preprocess_text "aaa"))
        (tfidfVec scorerNeg (preprocess_text "aaa")) = 1 := by
      unfold dotProd tfidfVec scorerNeg cnt1 idf1
      simp
    have htf : calculate_tfidf_similarity scorerNeg "aaa" "aaa" = 1 := by
      unfold calculate_tfidf_similarity
      rw [if_neg hne]
      unfold cosineSim
      rw [hdot, Real.sqrt_one]
      norm_num
    have hcomb : (calculate_hybrid_similarity scorerNeg "aaa" "aaa").combined_similarity
        = -(2 / 5) := by
      unfold calculate_hybrid_similarity
      have hb : (scorerNeg.use_huggingface && scorerNeg.hf_model.isSome) = true := rfl
      rw [if_pos hb]
      dsimp only
      have hu : scorerNeg.use_huggingface = true := rfl
      rw [if_pos hu, hhf, htf]
      norm_num
    rw [ats_field_eq, hcomb]
    unfold pyRoundTo
    have harg : (-(2 / 5) : ℝ) * 100 * 10 ^ 2 = ((-4000 : ℤ) : ℝ) := by norm_num
    rw [harg]
    have hpr : pyRound ((-4000 : ℤ) : ℝ) = -4000 := by
      unfold pyRound
      rw [if_neg (by rw [Int.fract_intCast]; norm_num), round_intCast]
    rw [hpr]
    norm_num

lemma missing_field_eq (s : Scorer) (enum : List String → List String)
    (resume job : String) :
    asStrList (pyGet (calculate_ats_score s enum resume job) "missing_keywords"
      (PyVal.strList [])) = find_missing_keywords enum resume job := rfl

lemma job_field_eq (s : Scorer) (enum : List String → List String)
    (resume job : String) :
    asStrList (pyGet (calculate_ats_score s enum resume job) "job_keywords"
      (PyVal.strList [])) = (extract_keywords job 20).take 15 := rfl

lemma resume_field_eq (s : Scorer) (enum : List String → List String)
    (resume job : String) :
    asStrList (pyGet (calculate_ats_score s enum resume job) "resume_keywords"
      (PyVal.strList [])) = (extract_keywords resume 20).take 15 := rfl

/-- Every reported missing keyword belongs to the full top-20 job keyword
list and to neither the full resume keyword list nor its truncated
`resume_keywords` field. -/
lemma mem_find_missing {enum : List String → List String} (henum : SetEnum enum)
    {resume job t : String} (ht : t ∈ find_missing_keywords enum resume job) :
    t ∈ extract_keywords job 20 ∧ t ∉ extract_keywords resume 20 := by
  have hmem : t ∈ enum ((extract_keywords job 20).filter
      (fun kw => decide (kw ∉ extract_keywords resume 20))) := List.mem_of_mem_take ht
  have hdiff := (henum _).mem_iff.mp hmem
  rw [List.mem_filter] at hdiff
  exact ⟨hdiff.1, by simpa using hdiff.2⟩

/-- C4 (amended): every token in the `missing_keywords` field of the
analysis result belongs to the full top-20 job keyword list and is absent
from the full top-20 resume keyword list — hence also from the result's
(15-truncated) `resume_keywords` field.  Membership in the result's
`job_keywords` field, however, can fail, because that field is truncated
to 15 entries while the missing keywords are computed from the full
top-20 sets: see the counterexample. -/
theorem c4_missing_keywords_fields (enum : List String → List String)
    (henum : SetEnum enum) (s : Scorer) (resume job : String) :
    ∀ t ∈ asStrList (pyGet (calculate_ats_score s enum resume job) "missing_keywords"
        (PyVal.strList [])),
      t ∈ extract_keywords job 20 ∧
        t ∉ extract_keywords resume 20 ∧
        t ∉ asStrList (pyGet (calculate_ats_score s enum resume job) "resume_keywords"
          (PyVal.strList [])) := by
  intro t ht
  rw [missing_field_eq] at ht
  have h := mem_find_missing henum ht
  refine ⟨h.1, h.2, ?_⟩
  rw [resume_field_eq]
  intro hc
  exact h.2 (List.mem_of_mem_take hc)

/-- C4 witness: the amended theorem applied to the identity enumeration
(admissible by reflexivity) and concrete texts. -/
theorem c4_missing_keywords_fields_witness :
    SetEnum (fun l => l) ∧
      (∀ t ∈ asStrList (pyGet (calculate_ats_score scorerLex (fun l => l)
          "python developer" "python engineer aws") "missing_keywords"
          (PyVal.strList [])),
        t ∈ extract_keywords "python engineer aws" 20 ∧
          t ∉ extract_keywords "python developer" 20 ∧
          t ∉ asStrList (pyGet (calculate_ats_score scorerLex (fun l => l)
            "python developer" "python engineer aws") "resume_keywords"
            (PyVal.strList []))) :=
  ⟨fun l => List.Perm.refl l,
    c4_missing_keywords_fields (fun l => l) (fun l => List.Perm.refl l) scorerLex
      "python developer" "python engineer aws"⟩

/-- C4 counterexample: under the (admissible) identity set enumeration,
"qpp" — the 16th job keyword — is reported in the result's
`missing_keywords` but does not belong to the result's `job_keywords`
field, which is truncated to the top 15.  The claim that every missing
keyword is a member of the `job_keywords` field of the same result is
therefore false. -/
theorem c4_counterexample :
    SetEnum (fun l => l) ∧
      "qpp" ∈ asStrList (pyGet (calculate_ats_score scorerLex (fun l => l)
        resumeText15 jobText20) "missing_keywords" (PyVal.strList [])) ∧
      "qpp" ∉ asStrList (pyGet (calculate_ats_score scorerLex (fun l => l)
        resumeText15 jobText20) "job_keywords" (PyVal.strList [])) := by
  refine ⟨fun l => List.Perm.refl l, ?_, ?_⟩
  · rw [missing_field_eq]
    decide
  · rw [job_field_eq]
    decide

/-- C7: the categorization is not total.  The `categorized` dict is
initialized with key "technical" but the loop appends under the category
table's key "technical_skills", so the first keyword with a technical
substring match — e.g. "programming" — raises `KeyError` and the whole
recommendation call fails.  Keywords matching the other categories (whose
keys do line up, e.g. "failed" ⊇ "led" → action_verbs) and unmatched
keywords ("zzz" → other) are categorized fine, which shows the key
mismatch is a slip rather than a design choice. -/
theorem c7_categorize_keyerror :
    categorize_keywords ["programming"] = none ∧
      categorize_keywords ["failed", "zzz"]
        = some [("technical", []), ("action_verbs", ["failed"]), ("soft_skills", []),
            ("quantifiers", []), ("other", ["zzz"])] := by
  constructor
  · decide
  · decide

lemma resume_text_get (s : Scorer) (enum : List String → List String)
    (resume job : String) :
    pyGet (calculate_ats_score s enum resume job) "resume_text" (PyVal.str "")
      = PyVal.str "" := rfl

lemma word_count_get (s : Scorer) (enum : List String → List String)
    (resume job : String) :
    pyGet (calculate_ats_score s enum resume job) "resume_word_count" (PyVal.num 0)
      = PyVal.num 0 := rfl

/-- C10: the scorer's analysis dictionary has no `resume_text` and no
`resume_word_count` key, so the recommender's section analysis sees the
empty string and reports all four canonical sections absent regardless of
the actual resume, and its format analysis sees word count 0 and always
emits the "Resume is too short" warning — both directly and inside any
successfully generated recommendation bundle. -/
theorem c10_recommender_defaults (s : Scorer) (enum : List String → List String)
    (resume job : String) :
    analyze_sections (calculate_ats_score s enum resume job)
        = { summary := ⟨false, ["Add a professional summary section"]⟩
            experience := ⟨false, ["Add work experience section"]⟩
            skills := ⟨false, ["Add skills section"]⟩
            education := ⟨false, ["Add education section"]⟩ } ∧
      (analyze_format (calculate_ats_score s enum resume job)).warnings
        = ["Resume is too short - consider adding more detail"] ∧
      Option.elim (generate_recommendations (calculate_ats_score s enum resume job)) True
        (fun rec =>
          rec.sections
              = { summary := ⟨false, ["Add a professional summary section"]⟩
                  experience := ⟨false, ["Add work experience section"]⟩
                  skills := ⟨false, ["Add skills section"]⟩
                  education := ⟨false, ["Add education section"]⟩ } ∧
            "Resume is too short - consider adding more detail" ∈ rec.format.warnings) := by
  have hsec : analyze_sections (calculate_ats_score s enum resume job)
      = { summary := ⟨false, ["Add a professional summary section"]⟩
          experience := ⟨false, ["Add work experience section"]⟩
          skills := ⟨false, ["Add skills section"]⟩
          education := ⟨false, ["Add education section"]⟩ } := by
    unfold analyze_sections
    rw [resume_text_get]
    decide
  have hfmt : (analyze_format (calculate_ats_score s enum resume job)).warnings
      = ["Resume is too short - consider adding more detail"] := by
    unfold analyze_format
    rw [word_count_get]
    dsimp only [asNum]
    rw [if_pos (by norm_num : (0 : ℝ) < 200)]
  refine ⟨hsec, hfmt, ?_⟩
  unfold generate_recommendations
  cases hk : analyze_keywords
      (asStrList (pyGet (calculate_ats_score s enum resume job) "missing_keywords"
        (PyVal.strList [])))
      (asStrList (pyGet (calculate_ats_score s enum resume job) "resume_keywords"
        (PyVal.strList []))) with
  | none => exact trivial
  | some kw =>
    refine ⟨hsec, ?_⟩
    show "Resume is too short - consider adding more detail"
      ∈ (analyze_format (calculate_ats_score s enum resume job)).warnings
    rw [hfmt]
    exact List.mem_singleton.mpr rfl
